import Mathlib

/-!
Verification development for the conference-scraping pipeline in research.py
of the prof repository.  The Python source is shallowly embedded: pure string
processing becomes Lean functions over List Char, the stateful crawl pipeline
becomes explicit Except-passing, and the asyncio semaphore discipline becomes
a small-step relation.  Each claim about the program is settled by a theorem
over these definitions.
-/

set_option maxRecDepth 4000

/-- Single-quote character (code point 39), used to build strings that contain
a quote without writing a quote literal. -/
def apos : Char := Char.ofNat 39

/-- Decide whether the first list is an initial segment of the second
(used to embed regex literal matching and the Python substring test). -/
def isHeadOf : List Char → List Char → Bool
  | [], _ => true
  | _ :: _, [] => false
  | a :: as, b :: bs => a = b && isHeadOf as bs

/-- Embedding of the Python substring test (the `in` operator on str)
on character lists: scan every suffix for the pattern at its head. -/
def containsSubL (pat : List Char) : List Char → Bool
  | [] => isHeadOf pat []
  | c :: rest => isHeadOf pat (c :: rest) || containsSubL pat rest

/-- Python substring test on strings. -/
def containsSub (pat s : String) : Bool :=
  containsSubL pat.toList s.toList

/-- Embedding of Python str.strip(): remove leading and trailing whitespace. -/
def pyStrip (s : String) : String :=
  String.mk (((s.toList.dropWhile Char.isWhitespace).reverse.dropWhile
    Char.isWhitespace).reverse)

/-- Embedding of Python str.lower() on the ASCII range used by the scraper. -/
def pyLower (s : List Char) : List Char :=
  s.map Char.toLower

/-- Fuel-driven worker for replaceAllL; the fuel is the input length, and every
step consumes at least one character, so the fuel never runs out on the
top-level call. -/
def replaceGo (pat rep : List Char) : Nat → List Char → List Char
  | 0, s => s
  | _ + 1, [] => []
  | fuel + 1, c :: rest =>
    if isHeadOf pat (c :: rest) then
      rep ++ replaceGo pat rep fuel ((c :: rest).drop pat.length)
    else
      c :: replaceGo pat rep fuel rest

/-- Embedding of Python str.replace (all occurrences, scanned left to right,
non-overlapping); the patterns used by the scraper are all nonempty. -/
def replaceAllL (pat rep s : List Char) : List Char :=
  if pat.isEmpty then s else replaceGo pat rep s.length s

/-- Character class of the local part of the email regex in get_contacts:
[a-zA-Z0-9._%+-]. -/
def isLocalChar (c : Char) : Bool :=
  c.isAlpha || c.isDigit || c = '.' || c = '_' || c = '%' || c = '+' || c = '-'

/-- Character class of the domain part of the email regex: [a-zA-Z0-9.-]. -/
def isDomainChar (c : Char) : Bool :=
  c.isAlpha || c.isDigit || c = '.' || c = '-'

/-- Backtracking search of the regex engine for the domain suffix of the email
pattern: after the at-sign, the engine greedily matches [a-zA-Z0-9.-]+ and then
backtracks to the largest split k at which a literal dot is followed by at
least two letters ([a-zA-Z]\x7b2,\x7d, greedy).  Returns (k, tld length). -/
def findSplit (s2 : List Char) : Nat → Option (Nat × Nat)
  | 0 => none
  | k + 1 =>
    if s2.get? (k + 1) = some ('.') then
      let t := ((s2.drop (k + 2)).takeWhile Char.isAlpha).length
      if 2 ≤ t then some (k + 1, t) else findSplit s2 k
    else findSplit s2 k

/-- Match the email regex of get_contacts at the head of the input, returning
the length of the match: [a-zA-Z0-9._%+-]+@[a-zA-Z0-9.-]+\.[a-zA-Z]\x7b2,\x7d. -/
def matchEmailAt (s : List Char) : Option Nat :=
  let locN := (s.takeWhile isLocalChar).length
  if locN = 0 then none
  else
    match s.get? locN with
    | some c =>
      if c = '@' then
        let s2 := s.drop (locN + 1)
        let domN := (s2.takeWhile isDomainChar).length
        if domN = 0 then none
        else
          match findSplit s2 (domN - 1) with
          | some (k, t) => some (locN + 1 + k + 1 + t)
          | none => none
      else none
    | none => none

/-- Fuel-driven worker of the findall embedding: leftmost non-overlapping
matches of the email pattern, continuing after each match end. -/
def findEmailsGo : Nat → List Char → List String
  | 0, _ => []
  | _ + 1, [] => []
  | fuel + 1, c :: rest =>
    match matchEmailAt (c :: rest) with
    | some n => String.mk ((c :: rest).take n) :: findEmailsGo fuel ((c :: rest).drop n)
    | none => findEmailsGo fuel rest

/-- Embedding of re.findall with the email pattern of get_contacts. -/
def findAllEmails (s : List Char) : List String :=
  findEmailsGo s.length s

/-- Opening literal of the inline email-span pattern in get_contacts. -/
def spanOpenLit : List Char := ("<span class=\"email\">").toList

/-- Closing literal of the inline email-span pattern in get_contacts. -/
def spanCloseLit : List Char := ("</span>").toList

/-- Match the email-span rewriting pattern of get_contacts at the head of the
input: \s*, the opening span literal, a nonempty run of characters other than
a left angle bracket (the captured group), the closing literal, then \s*.
Returns the captured group and the total matched length. -/
def matchSpanAt (s : List Char) : Option (List Char × Nat) :=
  let w := (s.takeWhile Char.isWhitespace).length
  let s1 := s.drop w
  if isHeadOf spanOpenLit s1 then
    let s2 := s1.drop spanOpenLit.length
    let body := s2.takeWhile (fun c => c ≠ ('<'))
    if body.length = 0 then none
    else
      let s3 := s2.drop body.length
      if isHeadOf spanCloseLit s3 then
        let tw := ((s3.drop spanCloseLit.length).takeWhile Char.isWhitespace).length
        some (body, w + spanOpenLit.length + body.length + spanCloseLit.length + tw)
      else none
  else none

/-- Fuel-driven worker of the re.sub embedding for the email-span pattern:
leftmost non-overlapping matches are replaced by their captured group. -/
def subSpanGo : Nat → List Char → List Char
  | 0, s => s
  | _ + 1, [] => []
  | fuel + 1, c :: rest =>
    match matchSpanAt (c :: rest) with
    | some (body, n) => body ++ subSpanGo fuel ((c :: rest).drop n)
    | none => c :: subSpanGo fuel rest

/-- Embedding of the re.sub call that unwraps inline email spans. -/
def subSpan (s : List Char) : List Char :=
  subSpanGo s.length s

/-- Embedding of the deobfuscation pass of get_contacts: lowercase the body,
rewrite the obfuscation idioms in source order, then unwrap email spans. -/
def deobfuscate (text : List Char) : List Char :=
  let h0 := pyLower text
  let h1 := replaceAllL (" [at] ").toList ("@").toList h0
  let h2 := replaceAllL (" [dot] ").toList (".").toList h1
  let h3 := replaceAllL ("(at)").toList ("@").toList h2
  let h4 := replaceAllL ("(dot)").toList (".").toList h3
  let h5 := replaceAllL (" at ").toList ("@").toList h4
  let h6 := replaceAllL (" dot ").toList (".").toList h5
  let h7 := replaceAllL ("&#64;").toList ("@").toList h6
  let h8 := replaceAllL ("&#46;").toList (".").toList h7
  subSpan h8

/-- Embedding of the mailto extraction in get_contacts: strip the 7-character
mailto scheme from the href and keep everything before the first question
mark. -/
def mailtoEmail (href : String) : String :=
  String.mk ((href.toList.drop 7).takeWhile (fun c => c ≠ ('?')))

/-- Embedding of the last-name computation of get_contacts: the final
component of the author name split on single spaces, lowercased. -/
def lastNameOf (author : String) : String :=
  String.mk (pyLower ((author.splitOn (" ")).getLastD ("")).toList)

/-- Abstraction of one fetched candidate page in get_contacts.  The HTML
parsing done by the external BeautifulSoup library is abstracted to its two
observable artifacts: the response status, the href attributes of anchors
whose href starts with mailto (in document order), and the raw body text. -/
structure FetchedPage where
  status : Nat
  mailtoHrefs : List String
  text : String
deriving DecidableEq

/-- Email extraction from one successfully fetched page, as done in the loop
body of get_contacts: pages with a non-200 status yield nothing; an explicit
mailto link wins; otherwise the single email-pattern scan runs on the
lowercased, deobfuscated body, preferring a match that contains the
lowercased last name over the first match. -/
def emailFromPage (lastName : String) (p : FetchedPage) : Option String :=
  if p.status = 200 then
    match p.mailtoHrefs with
    | h :: _ => some (mailtoEmail h)
    | [] =>
      let found := findAllEmails (deobfuscate p.text.toList)
      match found.filter (fun e => containsSub lastName e) with
      | pe :: _ => some pe
      | [] =>
        match found with
        | e :: _ => some e
        | [] => none
  else none

/-- Embedding of the email-resolution loop of get_contacts over the candidate
result URLs: a failed fetch (modelled as none) is skipped, and the loop stops
at the first page that yields an email; the fallback value mirrors the n/a
sentinel of the source. -/
def resolveEmail (lastName : String) : List (Option FetchedPage) → String
  | [] => ("n/a")
  | none :: rest => resolveEmail lastName rest
  | some p :: rest =>
    match emailFromPage lastName p with
    | some e => e
    | none => resolveEmail lastName rest

/-- Modelled from the claim wording of the email-resolution priority chain
(not from the source): a direct email-pattern match on the fetched body is
tried before the deobfuscation pass, and resolution stops at the first match.
Used only to compare the documented chain against the code. -/
def claimChainPage (p : FetchedPage) : Option String :=
  if p.status = 200 then
    match p.mailtoHrefs with
    | h :: _ => some (mailtoEmail h)
    | [] =>
      match findAllEmails p.text.toList with
      | e :: _ => some e
      | [] =>
        match findAllEmails (deobfuscate p.text.toList) with
        | e :: _ => some e
        | [] => none
  else none

/-- Modelled from the claim wording: the claimed resolution over the candidate
URLs, stopping at the first match. -/
def claimChainResolve : List (Option FetchedPage) → String
  | [] => ("n/a")
  | none :: rest => claimChainResolve rest
  | some p :: rest =>
    match claimChainPage p with
    | some e => e
    | none => claimChainResolve rest

/-- Error taxonomy of the crawl pipeline: the two exception classes caught by
the retry decorator (aiohttp client errors and asyncio timeouts), the
structural parse failure of indexing a missing card container, and the
attribute error raised by dereferencing a failed regex match. -/
inductive FetchErr where
  | clientError
  | timeoutError
  | parseError
  | attributeError
deriving DecidableEq

/-- Classification used by the except clause of retry_on_server_disconnect:
only aiohttp.ClientError and asyncio.TimeoutError are caught and retried. -/
def transientE : FetchErr → Bool
  | FetchErr.clientError => true
  | FetchErr.timeoutError => true
  | FetchErr.parseError => false
  | FetchErr.attributeError => false

/-- Worker of the retry decorator embedding.  The function attempts maps the
attempt index to that attempt's outcome.  The first component is the final
outcome (none models the implicit Python None returned when the loop body
never runs, possible only with zero tries); the second counts attempts made.
A transient error on the last try is re-raised; a non-transient error
propagates immediately because the except clause does not catch it. -/
def retryFrom (attempts : Nat → Except FetchErr α) :
    Nat → Nat → Option (Except FetchErr α) × Nat
  | 0, _ => (none, 0)
  | remaining + 1, i =>
    match attempts i with
    | Except.ok a => (some (Except.ok a), 1)
    | Except.error e =>
      if transientE e then
        if remaining = 0 then (some (Except.error e), 1)
        else
          let r := retryFrom attempts remaining (i + 1)
          (r.1, r.2 + 1)
      else (some (Except.error e), 1)

/-- Embedding of retry_on_server_disconnect(n) applied to a fetch whose
attempt outcomes are given by attempts. -/
def retryOnServerDisconnect (n : Nat) (attempts : Nat → Except FetchErr α) :
    Option (Except FetchErr α) × Nat :=
  retryFrom attempts n 0

/-- Literal head of the SPEAKER_ID_REGEX pattern: showSpeaker followed by an
opening parenthesis and a single quote. -/
def speakerCallHead : List Char := ("showSpeaker(").toList ++ [apos]

/-- Embedding of SPEAKER_ID_REGEX.match: the handler string must begin with
the showSpeaker call literal, then a nonempty greedy run of digits or
hyphens (the captured id), then a closing quote and parenthesis; anything
after that is unconstrained.  Returns the captured group. -/
def speakerIdMatch (s : String) : Option String :=
  let cs := s.toList
  if isHeadOf speakerCallHead cs then
    let rest := cs.drop speakerCallHead.length
    let idRun := rest.takeWhile (fun c => c.isDigit || c = ('-'))
    if idRun.length = 0 then none
    else
      match rest.drop idRun.length with
      | c1 :: c2 :: _ =>
        if c1 = apos ∧ c2 = (')') then some (String.mk idRun) else none
      | _ => none
  else none

/-- Abstraction of one interactive button element on a paper page: its text
and its optional click-handler attribute. -/
structure BtnElem where
  text : String
  onclick : Option String
deriving DecidableEq

/-- Embedding of the author list comprehension of load_paper: buttons whose
handler does not contain the showSpeaker substring are skipped; for the
others the speaker-id regex match is dereferenced unguarded, so a handler
that contains showSpeaker but does not begin with the exact call pattern
raises an attribute error that fails the whole paper parse. -/
def loadPaperAuthors : List BtnElem → Except FetchErr (List (String × String))
  | [] => Except.ok []
  | b :: rest =>
    if containsSub ("showSpeaker") (b.onclick.getD ("")) then
      match speakerIdMatch (b.onclick.getD ("")) with
      | some id =>
        match loadPaperAuthors rest with
        | Except.ok as => Except.ok ((pyStrip b.text, id) :: as)
        | Except.error e => Except.error e
      | none => Except.error FetchErr.attributeError
    else loadPaperAuthors rest

/-- Result of one successfully parsed paper page: the stripped title and the
(display name, speaker id) pairs in document order. -/
structure PaperData where
  title : String
  authors : List (String × String)
deriving DecidableEq

/-- One flattened output row of a target at the granularity produced by
Conference.scrape before the constant Conference and Year columns are
inserted. -/
structure NRow where
  title : String
  author : String
  affiliation : String
deriving DecidableEq

/-- Embedding of asyncio.gather without return_exceptions: if every task
succeeds the list of results is returned in task order; if any task fails,
the exception propagates out of the gather call and no result list exists. -/
def gatherE : List (Except FetchErr α) → Except FetchErr (List α)
  | [] => Except.ok []
  | Except.ok a :: rest =>
    match gatherE rest with
    | Except.ok as => Except.ok (a :: as)
    | Except.error e => Except.error e
  | Except.error e :: _ => Except.error e

/-- Embedding of the distinct author-id computation of Conference.scrape:
list(set(...)) over all (name, id) pairs of the parsed papers.  The Python
set iterates in an unspecified order; dedup models the set semantics (one
occurrence of each id). -/
def authorIdsOf (paperData : List PaperData) : List String :=
  (paperData.flatMap (fun p => p.authors.map Prod.snd)).dedup

/-- Embedding of the lookup in a Python dict built from a pair list with
dict(pairs): a later binding of the same key overrides an earlier one. -/
def pyDictGet (pairs : List (String × String)) (k : String) : Option String :=
  match pairs with
  | [] => none
  | (a, b) :: rest =>
    match pyDictGet rest k with
    | some v => some v
    | none => if a = k then some b else none

/-- Embedding of the join of Conference.scrape: the affiliation map is the
dict built from the fetched (author-page name, affiliation) pairs, and each
paper author's paper-page display name is looked up in it, defaulting to the
n/a sentinel; rows are flattened to one row per paper and author. -/
def joinRows (paperData : List PaperData) (authorData : List (String × String)) :
    List NRow :=
  paperData.flatMap (fun p =>
    p.authors.map (fun na =>
      ⟨p.title, na.1, (pyDictGet authorData na.1).getD ("n/a")⟩))

/-- Embedding of Conference.scrape for one (conference, year) target.  The
index result and the per-id fetch outcomes are passed explicitly; the three
stages mirror the source: gather all paper pages, compute the distinct
author ids, gather all author pages, then join. -/
def scrapePipeline (indexRes : Except FetchErr (List String))
    (paperFetch : String → Except FetchErr PaperData)
    (authorFetch : String → Except FetchErr (String × String)) :
    Except FetchErr (List NRow) :=
  match indexRes with
  | Except.error e => Except.error e
  | Except.ok paperIds =>
    match gatherE (paperIds.map paperFetch) with
    | Except.error e => Except.error e
    | Except.ok paperData =>
      match gatherE ((authorIdsOf paperData).map authorFetch) with
      | Except.error e => Except.error e
      | Except.ok authorData => Except.ok (joinRows paperData authorData)

/-- One persisted row of the combined data frame in scrape_mode, with the
columns Conference, Year, Title, Author, Affiliation; a missing affiliation
cell is modelled as none. -/
structure Row where
  conference : String
  year : Int
  title : String
  author : String
  affiliation : Option String
deriving DecidableEq

/-- Deduplication key used by drop_duplicates in scrape_mode. -/
def rowKey (r : Row) : String × Int × String × String :=
  (r.conference, r.year, r.title, r.author)

/-- Worker of the drop_duplicates embedding: keep a row only if its key has
not been seen earlier in the scan. -/
def dropDupBy (seen : List (String × Int × String × String)) :
    List Row → List Row
  | [] => []
  | r :: rs =>
    if rowKey r ∈ seen then dropDupBy seen rs
    else r :: dropDupBy (rowKey r :: seen) rs

/-- Embedding of drop_duplicates on the (Conference, Year, Title, Author)
key with keep set to first. -/
def dedupRows (rows : List Row) : List Row :=
  dropDupBy [] rows

/-- Embedding of the merge step of scrape_mode: concatenate the previously
persisted rows with the new rows, then deduplicate. -/
def mergeDedup (existing newRows : List Row) : List Row :=
  dedupRows (existing ++ newRows)

/-- Lexicographic comparison of character lists by code point, the order in
which pandas returns the sorted modes of a string series. -/
def lexLeB : List Char → List Char → Bool
  | [], _ => true
  | _ :: _, [] => false
  | a :: as, b :: bs =>
    if a.toNat < b.toNat then true
    else if b.toNat < a.toNat then false
    else lexLeB as bs

/-- Lexicographic string comparison by code point. -/
def strLeB (a b : String) : Bool :=
  lexLeB a.toList b.toList

/-- Number of occurrences of a value in a list of affiliation strings. -/
def cnt (l : List String) (a : String) : Nat :=
  (l.filter (fun b => b = a)).length

/-- Worker for the maximal occurrence count over the scanned values. -/
def maxCntAux (l : List String) : List String → Nat
  | [] => 0
  | a :: rest => max (cnt l a) (maxCntAux l rest)

/-- Maximal occurrence count of any value of the list. -/
def maxCnt (l : List String) : Nat :=
  maxCntAux l l

/-- Embedding of the pandas Series.mode call used in analyze_mode: the
distinct values of maximal count, returned sorted in ascending order (pandas
sorts the resulting modes with numpy sort before returning them). -/
def modesOf (vals : List String) : List String :=
  List.insertionSort (fun a b => strLeB a b = true)
    ((vals.dedup).filter (fun a => decide (cnt vals a = maxCnt vals)))

/-- Embedding of the affiliation resolution of analyze_mode: drop the missing
cells of the Affiliation column, take the modes, and pick entry zero when
the result is nonempty, otherwise no affiliation. -/
def affMode (col : List (Option String)) : Option String :=
  (modesOf (col.filterMap id)).head?

/-- Modelled from the claim wording (not from the source): among the values
of maximal count, pick the one encountered first in row order. -/
def firstMode (col : List (Option String)) : Option String :=
  (col.filterMap id).find?
    (fun a => decide (cnt (col.filterMap id) a = maxCnt (col.filterMap id)))

/-- Counting abstraction of the crawl run state: how many fetch tasks have
not yet entered the semaphore critical section, how many hold a permit but
have not yet issued their request, how many hold a permit with their request
in flight (response being read or parsed), and how many have finished and
released their permit. -/
structure CrawlSt where
  waiting : Nat
  acquired : Nat
  inFlight : Nat
  finished : Nat
deriving DecidableEq

/-- Small-step relation of the bounded fetcher for a parallelism bound n,
following load_doc_from_url: a task first acquires the shared semaphore
(possible only when fewer than n permits are held), then issues its request
inside the critical section, and releases its permit when it finishes —
the finish steps cover both success and an exception raised before or after
the request was issued, because the async-with blocks release the permit
unconditionally. -/
inductive CrawlStep (n : Nat) : CrawlSt → CrawlSt → Prop
  | acq {w a f d : Nat} (h : a + f < n) :
      CrawlStep n ⟨w + 1, a, f, d⟩ ⟨w, a + 1, f, d⟩
  | issue {w a f d : Nat} :
      CrawlStep n ⟨w, a + 1, f, d⟩ ⟨w, a, f + 1, d⟩
  | finishEarly {w a f d : Nat} :
      CrawlStep n ⟨w, a + 1, f, d⟩ ⟨w, a, f, d + 1⟩
  | finishFlight {w a f d : Nat} :
      CrawlStep n ⟨w, a, f + 1, d⟩ ⟨w, a, f, d + 1⟩

/-- Reachability of a crawl state from an initial state by crawl steps. -/
inductive CrawlReach (n : Nat) (s0 : CrawlSt) : CrawlSt → Prop
  | refl : CrawlReach n s0 s0
  | step {s1 s2 : CrawlSt} (h : CrawlReach n s0 s1) (hs : CrawlStep n s1 s2) :
      CrawlReach n s0 s2

deriving instance DecidableEq for Except

/-- Concrete paper fetcher in which exactly paper id 2 fails terminally with
a parse error while paper id 1 parses fine. -/
def c1Pf : String → Except FetchErr PaperData := fun pid =>
  if pid = ("1") then Except.ok ⟨("T1"), [(("A"), ("10"))]⟩
  else Except.error FetchErr.parseError

/-- Concrete author fetcher in which every author page succeeds. -/
def c1Af : String → Except FetchErr (String × String) := fun _ =>
  Except.ok (("A"), ("MIT"))

/-- Concrete paper fetcher in which every paper page parses fine. -/
def c2Pf : String → Except FetchErr PaperData := fun _ =>
  Except.ok ⟨("T1"), [(("A"), ("10"))]⟩

/-- Concrete author fetcher in which every author page fails terminally. -/
def c2Af : String → Except FetchErr (String × String) := fun _ =>
  Except.error FetchErr.timeoutError

/-- Concrete paper fetcher whose single paper shows the abbreviated display
name J. Smith with speaker id 10. -/
def c3Pf : String → Except FetchErr PaperData := fun _ =>
  Except.ok ⟨("T"), [(("J. Smith"), ("10"))]⟩

/-- Concrete author fetcher: the author page of id 10 succeeds and shows the
full name Jane Smith with affiliation MIT. -/
def c3Af : String → Except FetchErr (String × String) := fun _ =>
  Except.ok (("Jane Smith"), ("MIT"))

/-- Concrete candidate page whose body holds a space-dot obfuscated email
before a plain email. -/
def c5Page : FetchedPage := ⟨200, [], ("a@b dot com and c@d.co")⟩

/-- Concrete candidate page with both a mailto link and a plain email in the
body. -/
def c5MailtoPage : FetchedPage :=
  ⟨200, [("mailto:x@y.org?subject=hi")], ("b@c.org body")⟩

/-- Concrete click handler that contains showSpeaker but does not begin with
the exact call pattern. -/
def c10BadOnclick : String :=
  ("dismiss(); showSpeaker(") ++ String.singleton apos ++ ("3") ++
    String.singleton apos ++ (")")

/-- Deduplication with a fixed seen set is idempotent. -/
theorem dropDupBy_idem (l : List Row) :
    ∀ seen, dropDupBy seen (dropDupBy seen l) = dropDupBy seen l := by
  induction l with
  | nil => intro seen; rfl
  | cons r rs ih =>
    intro seen
    by_cases h : rowKey r ∈ seen
    · simp only [dropDupBy, if_pos h]
      exact ih seen
    · simp only [dropDupBy, if_neg h]
      rw [ih (rowKey r :: seen)]

/-- Claim C7: the merge-and-dedup step of scrape_mode (concatenation of the
persisted and new rows followed by drop_duplicates on the Conference, Year,
Title, Author key with first-seen-wins) is idempotent: deduplicating its
output again, or running the merge step again on its own output with no new
rows, returns the output unchanged. -/
theorem claim_C7_dedup_idempotent (existing newRows : List Row) :
    dedupRows (mergeDedup existing newRows) = mergeDedup existing newRows ∧
    mergeDedup (mergeDedup existing newRows) [] = mergeDedup existing newRows := by
  constructor
  · exact dropDupBy_idem (existing ++ newRows) []
  · show dedupRows (dedupRows (existing ++ newRows) ++ []) = _
    rw [List.append_nil]
    exact dropDupBy_idem (existing ++ newRows) []

/-- Claim C10: in the author extraction of load_paper, only buttons whose
click handler does not contain the showSpeaker substring are skipped; a
button whose handler contains showSpeaker but does not begin with the exact
showSpeaker call pattern (id of digits and hyphens in quotes) makes the
whole paper parse fail with the attribute error of dereferencing the failed
regex match. -/
theorem claim_C10_unguarded_speaker_match :
    (∀ (b : BtnElem) (rest : List BtnElem),
        containsSub ("showSpeaker") (b.onclick.getD ("")) = false →
        loadPaperAuthors (b :: rest) = loadPaperAuthors rest) ∧
    (∀ (b : BtnElem) (rest : List BtnElem),
        containsSub ("showSpeaker") (b.onclick.getD ("")) = true →
        speakerIdMatch (b.onclick.getD ("")) = none →
        loadPaperAuthors (b :: rest) = Except.error FetchErr.attributeError) := by
  constructor
  · intro b rest h
    simp [loadPaperAuthors, h]
  · intro b rest h h2
    simp [loadPaperAuthors, h, h2]

/-- Witness for claim C10 at concrete buttons: a handler without showSpeaker
is skipped, and a handler that merely contains showSpeaker somewhere fails
the parse. -/
theorem claim_C10_unguarded_speaker_match_witness :
    loadPaperAuthors [⟨("x"), some ("highlight()")⟩] = loadPaperAuthors [] ∧
    loadPaperAuthors [⟨("x"), some c10BadOnclick⟩] =
      Except.error FetchErr.attributeError :=
  ⟨claim_C10_unguarded_speaker_match.1 ⟨("x"), some ("highlight()")⟩ [] (by decide),
   claim_C10_unguarded_speaker_match.2 ⟨("x"), some c10BadOnclick⟩ [] (by decide)
     (by decide)⟩

/-- The retry loop makes at most as many attempts as it is given tries. -/
theorem retryFrom_count_le {α : Type} (attempts : Nat → Except FetchErr α) :
    ∀ remaining i, (retryFrom attempts remaining i).2 ≤ remaining := by
  intro remaining
  induction remaining with
  | zero => intro i; simp [retryFrom]
  | succ m ih =>
    intro i
    rw [retryFrom]
    cases h : attempts i with
    | ok a => simp
    | error e =>
      by_cases ht : transientE e = true
      · by_cases hm : m = 0
        · simp [ht, hm]
        · simp only [ht, if_true, if_neg hm]
          have := ih (i + 1)
          simp
          omega
      · simp [ht]

/-- Claim C6: the retry policy of the fetcher.  A fetch wrapped by
retry_on_server_disconnect(5) makes at most 5 attempts; when all 5 attempts
fail with classified-transient errors the final attempt's error is raised
after exactly 5 attempts; a non-transient error (such as the structural
parse and attribute errors) propagates immediately after a single attempt;
and the transient classification covers exactly the client and timeout
errors. -/
theorem claim_C6_retry_policy :
    (∀ (α : Type) (attempts : Nat → Except FetchErr α),
        (retryOnServerDisconnect 5 attempts).2 ≤ 5) ∧
    (∀ (α : Type) (attempts : Nat → Except FetchErr α) (es : Nat → FetchErr),
        (∀ i, i < 5 → attempts i = Except.error (es i) ∧ transientE (es i) = true) →
        retryOnServerDisconnect 5 attempts = (some (Except.error (es 4)), 5)) ∧
    (∀ (α : Type) (attempts : Nat → Except FetchErr α) (e : FetchErr),
        attempts 0 = Except.error e → transientE e = false →
        retryOnServerDisconnect 5 attempts = (some (Except.error e), 1)) ∧
    transientE FetchErr.clientError = true ∧
    transientE FetchErr.timeoutError = true ∧
    transientE FetchErr.parseError = false ∧
    transientE FetchErr.attributeError = false := by
  refine ⟨?_, ?_, ?_, rfl, rfl, rfl, rfl⟩
  · intro α attempts
    exact retryFrom_count_le attempts 5 0
  · intro α attempts es h
    have h0 := h 0 (by omega)
    have h1 := h 1 (by omega)
    have h2 := h 2 (by omega)
    have h3 := h 3 (by omega)
    have h4 := h 4 (by omega)
    show retryFrom attempts 5 0 = _
    rw [show (5 : Nat) = 4 + 1 from rfl, retryFrom, h0.1]
    simp only [h0.2, if_true]
    rw [show (4 : Nat) = 3 + 1 from rfl, retryFrom, h1.1]
    simp only [h1.2, if_true]
    rw [show (3 : Nat) = 2 + 1 from rfl, retryFrom, h2.1]
    simp only [h2.2, if_true]
    rw [show (2 : Nat) = 1 + 1 from rfl, retryFrom, h3.1]
    simp only [h3.2, if_true]
    rw [show (1 : Nat) = 0 + 1 from rfl, retryFrom, h4.1]
    simp [h4.2]
  · intro α attempts e h ht
    show retryFrom attempts 5 0 = _
    rw [show (5 : Nat) = 4 + 1 from rfl, retryFrom, h]
    simp [ht]

/-- Witness for claim C6 at concrete attempt outcomes: five straight
timeouts raise the timeout after 5 attempts, and a parse error propagates
after a single attempt. -/
theorem claim_C6_retry_policy_witness :
    retryOnServerDisconnect 5
        (fun _ => (Except.error FetchErr.timeoutError : Except FetchErr Unit)) =
      (some (Except.error FetchErr.timeoutError), 5) ∧
    retryOnServerDisconnect 5
        (fun _ => (Except.error FetchErr.parseError : Except FetchErr Unit)) =
      (some (Except.error FetchErr.parseError), 1) :=
  ⟨claim_C6_retry_policy.2.1 Unit (fun _ => Except.error FetchErr.timeoutError)
      (fun _ => FetchErr.timeoutError) (fun _ _ => ⟨rfl, rfl⟩),
   claim_C6_retry_policy.2.2.1 Unit (fun _ => Except.error FetchErr.parseError)
      FetchErr.parseError rfl rfl⟩

/-- A gather over tasks one of which failed never produces a result list:
the exception propagates out of the gather call. -/
theorem gatherE_error_of_mem {α : Type} {l : List (Except FetchErr α)}
    {e : FetchErr} (h : Except.error e ∈ l) :
    ∃ e2, gatherE l = Except.error e2 := by
  induction l with
  | nil => cases h
  | cons x rest ih =>
    cases x with
    | error e3 => exact ⟨e3, rfl⟩
    | ok a =>
      rcases List.mem_cons.mp h with h1 | h1
      · cases h1
      · obtain ⟨e2, he⟩ := ih h1
        refine ⟨e2, ?_⟩
        simp [gatherE, he]

/-- Claim C1 (corrected): a single paper's terminal fetch or parse failure is
not isolated — because the paper-stage gather is called without
return_exceptions, the exception propagates and the whole (conference, year)
target aborts with an error, so no paper of the target produces rows. -/
theorem claim_C1_paper_failure_aborts (ids : List String)
    (paperFetch : String → Except FetchErr PaperData)
    (authorFetch : String → Except FetchErr (String × String))
    (pid : String) (e : FetchErr) (hi : pid ∈ ids)
    (hf : paperFetch pid = Except.error e) :
    ∃ e2, scrapePipeline (Except.ok ids) paperFetch authorFetch =
      Except.error e2 := by
  have hmem : Except.error e ∈ ids.map paperFetch := List.mem_map.mpr ⟨pid, hi, hf⟩
  obtain ⟨e2, he⟩ := gatherE_error_of_mem hmem
  exact ⟨e2, by simp [scrapePipeline, he]⟩

/-- Counterexample for claim C1 as stated: with two paper ids of which only
id 2 fails (c1Pf) and all author pages fine, the target's scrape returns the
parse error — the sibling paper 1 does not produce its row, contradicting
the claimed partial-failure isolation. -/
theorem claim_C1_counterexample :
    scrapePipeline (Except.ok [("1"), ("2")]) c1Pf c1Af =
      Except.error FetchErr.parseError := by decide

/-- Witness for claim C1 (corrected) at the concrete failing target. -/
theorem claim_C1_paper_failure_aborts_witness :
    ∃ e2, scrapePipeline (Except.ok [("1"), ("2")]) c1Pf c1Af =
      Except.error e2 :=
  claim_C1_paper_failure_aborts [("1"), ("2")] c1Pf c1Af ("2")
    FetchErr.parseError (by decide) (by decide)

/-- Claim C2 (corrected): an author-detail fetch failure is not degraded to
the n/a sentinel — because the author-stage gather is called without
return_exceptions, the failure propagates and the whole (conference, year)
target aborts with an error instead of completing. -/
theorem claim_C2_author_failure_aborts (ids : List String)
    (paperFetch : String → Except FetchErr PaperData)
    (authorFetch : String → Except FetchErr (String × String))
    (paperData : List PaperData) (aid : String) (e : FetchErr)
    (hp : gatherE (ids.map paperFetch) = Except.ok paperData)
    (ha : aid ∈ authorIdsOf paperData)
    (hf : authorFetch aid = Except.error e) :
    ∃ e2, scrapePipeline (Except.ok ids) paperFetch authorFetch =
      Except.error e2 := by
  have hmem : Except.error e ∈ (authorIdsOf paperData).map authorFetch :=
    List.mem_map.mpr ⟨aid, ha, hf⟩
  obtain ⟨e2, he⟩ := gatherE_error_of_mem hmem
  exact ⟨e2, by simp [scrapePipeline, hp, he]⟩

/-- Counterexample for claim C2 as stated: with one paper that parses fine
and an author page that times out terminally (c2Af), the target's scrape
returns the timeout error instead of completing with an n/a affiliation
row. -/
theorem claim_C2_counterexample :
    scrapePipeline (Except.ok [("1")]) c2Pf c2Af =
      Except.error FetchErr.timeoutError := by decide

/-- Witness for claim C2 (corrected) at the concrete failing target. -/
theorem claim_C2_author_failure_aborts_witness :
    ∃ e2, scrapePipeline (Except.ok [("1")]) c2Pf c2Af = Except.error e2 :=
  claim_C2_author_failure_aborts [("1")] c2Pf c2Af
    [⟨("T1"), [(("A"), ("10"))]⟩] ("10") FetchErr.timeoutError
    (by decide) (by decide) (by decide)

/-- A key is absent from the python dict exactly when no pair binds it. -/
theorem pyDictGet_none_iff (ad : List (String × String)) (k : String) :
    pyDictGet ad k = none ↔ ∀ p ∈ ad, p.1 ≠ k := by
  induction ad with
  | nil => simp [pyDictGet]
  | cons ab rest ih =>
    obtain ⟨a, b⟩ := ab
    rw [pyDictGet]
    cases hr : pyDictGet rest k with
    | some v =>
      simp only [reduceCtorEq, false_iff]
      intro hall
      have := (ih.mpr (fun p hp => hall p (List.mem_cons_of_mem _ hp)))
      rw [this] at hr
      cases hr
    | none =>
      by_cases hak : a = k
      · simp [hak]
      · simp only [if_neg hak, true_iff]
        intro p hp
        rcases List.mem_cons.mp hp with h1 | h1
        · rw [h1]; exact hak
        · exact (ih.mp hr) p h1

/-- A successful python dict lookup returns a binding present in the pair
list. -/
theorem pyDictGet_mem {ad : List (String × String)} {k v : String}
    (h : pyDictGet ad k = some v) : (k, v) ∈ ad := by
  induction ad with
  | nil => cases h
  | cons ab rest ih =>
    obtain ⟨a, b⟩ := ab
    rw [pyDictGet] at h
    cases hr : pyDictGet rest k with
    | some w =>
      rw [hr] at h
      cases h
      exact List.mem_cons_of_mem _ (ih hr)
    | none =>
      rw [hr] at h
      by_cases hak : a = k
      · rw [if_pos hak] at h
        cases h
        rw [hak]
        exact List.mem_cons_self _ _
      · rw [if_neg hak] at h
        cases h

/-- A later binding of a key overrides every earlier one in a python dict. -/
theorem pyDictGet_last (ad1 ad2 : List (String × String)) (k v : String)
    (h : ∀ p ∈ ad2, p.1 ≠ k) :
    pyDictGet (ad1 ++ (k, v) :: ad2) k = some v := by
  induction ad1 with
  | nil =>
    rw [List.nil_append, pyDictGet, (pyDictGet_none_iff ad2 k).mpr h, if_pos rfl]
  | cons ab rest ih =>
    obtain ⟨a, b⟩ := ab
    rw [List.cons_append, pyDictGet, ih]

/-- Claim C3 (corrected): the affiliation join of Conference.scrape is keyed
by display name, not author id.  The dict built from the author stage maps
the author-page display name to the affiliation (later duplicates
overriding); the join looks up each paper author's paper-page display name
in it; when both stages succeed the target output is exactly this name-keyed
join, and every joined affiliation is either the n/a sentinel or the value
bound to that display name — so an author whose id was fetched successfully
still gets the sentinel whenever the two display names differ. -/
theorem claim_C3_join_keyed_by_name :
    (∀ (ad : List (String × String)) (k : String),
        pyDictGet ad k = none ↔ ∀ p ∈ ad, p.1 ≠ k) ∧
    (∀ (ad1 ad2 : List (String × String)) (k v : String),
        (∀ p ∈ ad2, p.1 ≠ k) → pyDictGet (ad1 ++ (k, v) :: ad2) k = some v) ∧
    (∀ (ids : List String) (paperFetch : String → Except FetchErr PaperData)
        (authorFetch : String → Except FetchErr (String × String))
        (paperData : List PaperData) (authorData : List (String × String)),
        gatherE (ids.map paperFetch) = Except.ok paperData →
        gatherE ((authorIdsOf paperData).map authorFetch) = Except.ok authorData →
        scrapePipeline (Except.ok ids) paperFetch authorFetch =
          Except.ok (joinRows paperData authorData)) ∧
    (∀ (paperData : List PaperData) (authorData : List (String × String)),
        ∀ r ∈ joinRows paperData authorData,
          r.affiliation = ("n/a") ∨ (r.author, r.affiliation) ∈ authorData) := by
  refine ⟨pyDictGet_none_iff, pyDictGet_last, ?_, ?_⟩
  · intro ids paperFetch authorFetch paperData authorData hp ha
    simp [scrapePipeline, hp, ha]
  · intro paperData authorData r hr
    simp only [joinRows, List.mem_flatMap, List.mem_map] at hr
    obtain ⟨p, hp, na, hna, hr⟩ := hr
    cases hd : pyDictGet authorData na.1 with
    | none =>
      left
      rw [← hr]
      simp [hd]
    | some v =>
      right
      rw [← hr]
      simp only [hd, Option.getD_some]
      exact pyDictGet_mem hd

/-- Counterexample for claim C3 as stated: the paper shows the abbreviated
display name J. Smith for speaker id 10, the author page of id 10 succeeds
with name Jane Smith and affiliation MIT, yet the produced row carries the
n/a sentinel because the join looks the paper-page name up in a map keyed by
the author-page name. -/
theorem claim_C3_counterexample :
    scrapePipeline (Except.ok [("1")]) c3Pf c3Af =
      Except.ok [⟨("T"), ("J. Smith"), ("n/a")⟩] := by decide

/-- Witness for claim C3 (corrected) at the concrete target: with both
stages succeeding, the output is exactly the name-keyed join. -/
theorem claim_C3_join_keyed_by_name_witness :
    scrapePipeline (Except.ok [("1")]) c3Pf c3Af =
      Except.ok (joinRows [⟨("T"), [(("J. Smith"), ("10"))]⟩]
        [(("Jane Smith"), ("MIT"))]) :=
  claim_C3_join_keyed_by_name.2.2.1 [("1")] c3Pf c3Af
    [⟨("T"), [(("J. Smith"), ("10"))]⟩] [(("Jane Smith"), ("MIT"))]
    (by decide) (by decide)

/-- Claim C4: for every successfully parsed paper list, the list of author
ids the author stage fetches (authorIdsOf, the list-of-set computation of
Conference.scrape over which load_author tasks are mapped one-to-one) has
exactly one entry per distinct referenced author id: its length is the
number of distinct ids, it has no duplicates, and it contains precisely the
ids referenced by the papers. -/
theorem claim_C4_distinct_author_fetches (paperData : List PaperData) :
    (authorIdsOf paperData).length =
      (paperData.flatMap (fun p => p.authors.map Prod.snd)).toFinset.card ∧
    (authorIdsOf paperData).Nodup ∧
    ∀ aid, aid ∈ authorIdsOf paperData ↔
      ∃ p ∈ paperData, ∃ na ∈ p.authors, na.2 = aid := by
  refine ⟨?_, List.nodup_dedup _, ?_⟩
  · rw [List.card_toFinset]
    rfl
  · intro aid
    simp [authorIdsOf, List.mem_dedup, List.mem_flatMap, List.mem_map]

/-- Invariant of the crawl step relation: the number of held permits
(acquired plus in flight) never exceeds the semaphore size. -/
theorem crawl_permits_le {n : Nat} {m : Nat} {s : CrawlSt}
    (h : CrawlReach n ⟨m, 0, 0, 0⟩ s) : s.acquired + s.inFlight ≤ n := by
  induction h with
  | refl => simp
  | step h hs ih =>
    cases hs with
    | acq hlt => simp at ih ⊢; omega
    | issue => simp at ih ⊢; omega
    | finishEarly => simp at ih ⊢; omega
    | finishFlight => simp at ih ⊢; omega

/-- Claim C9: bounded concurrency of the fetcher.  In every crawl state
reachable from an initial state in which no task has started, the number of
HTTP requests simultaneously in flight never exceeds the semaphore size n,
because a request is only issued while holding a permit and permits are
released only by the finish steps. -/
theorem claim_C9_bounded_inflight (n m : Nat) (s : CrawlSt)
    (h : CrawlReach n ⟨m, 0, 0, 0⟩ s) : s.inFlight ≤ n := by
  have := crawl_permits_le h
  omega

/-- Witness for claim C9: with semaphore size 1 and two tasks, the state
after one acquire and one issue is reachable and has one request in
flight, within the bound. -/
theorem claim_C9_bounded_inflight_witness : (⟨1, 0, 1, 0⟩ : CrawlSt).inFlight ≤ 1 :=
  claim_C9_bounded_inflight 1 2 ⟨1, 0, 1, 0⟩
    (CrawlReach.step (CrawlReach.step CrawlReach.refl (CrawlStep.acq (by omega)))
      CrawlStep.issue)

/-- Claim C5 (corrected): email resolution of get_contacts.  An explicit
mailto link on a fetched page wins over anything in the body; resolution
stops at the first candidate page that yields an email; and there is no
separate direct-match pass — the email pattern is applied once, to the
lowercased and deobfuscation-rewritten body, so a body containing the
space-bracketed at and dot idioms yields the rewritten address. -/
theorem claim_C5_email_priority :
    (∀ (ln hr text : String) (hs : List String)
        (rest : List (Option FetchedPage)),
        resolveEmail ln (some ⟨200, hr :: hs, text⟩ :: rest) = mailtoEmail hr) ∧
    (∀ (ln : String) (p : FetchedPage) (rest : List (Option FetchedPage))
        (e : String),
        emailFromPage ln p = some e → resolveEmail ln (some p :: rest) = e) ∧
    resolveEmail ("doe")
        [some ⟨200, [], ("reach me: name [at] example [dot] com")⟩] =
      ("name@example.com") := by
  refine ⟨?_, ?_, by decide⟩
  · intro ln hr text hs rest
    simp [resolveEmail, emailFromPage]
  · intro ln p rest e he
    simp [resolveEmail, he]

/-- Witness for claim C5 (corrected): on a concrete page carrying both a
mailto link and a plain email in the body, resolution returns the mailto
address. -/
theorem claim_C5_email_priority_witness :
    resolveEmail ("doe") [some c5MailtoPage] = ("x@y.org") :=
  claim_C5_email_priority.2.1 ("doe") c5MailtoPage [] ("x@y.org") (by decide)

/-- Counterexample for claim C5 as stated: the claimed chain applies a direct
pattern match to the fetched body before the deobfuscation pass, but the
code deobfuscates first and matches once; on a body holding an obfuscated
email before a plain one the two disagree. -/
theorem claim_C5_counterexample :
    resolveEmail ("smith") [some c5Page] = ("a@b.com") ∧
    claimChainResolve [some c5Page] = ("c@d.co") ∧
    ("a@b.com") ≠ ("c@d.co") := ⟨by decide, by decide, by decide⟩

/-- The code-point lexicographic comparison is reflexive. -/
theorem lexLeB_refl : ∀ (l : List Char), lexLeB l l = true := by
  intro l
  induction l with
  | nil => rfl
  | cons a as ih => simp [lexLeB, ih]

/-- The code-point lexicographic comparison is total. -/
theorem lexLeB_total : ∀ (x y : List Char), lexLeB x y = true ∨ lexLeB y x = true := by
  intro x
  induction x with
  | nil => intro y; left; rfl
  | cons a as ih =>
    intro y
    cases y with
    | nil => right; rfl
    | cons b bs =>
      rcases Nat.lt_trichotomy a.toNat b.toNat with h | h | h
      · left; simp [lexLeB, h]
      · rcases ih bs with h2 | h2
        · left; simp [lexLeB, h, h2]
        · right; simp [lexLeB, h.symm, h2]
      · right; simp [lexLeB, h]

/-- The code-point lexicographic comparison is transitive. -/
theorem lexLeB_trans : ∀ (x y z : List Char),
    lexLeB x y = true → lexLeB y z = true → lexLeB x z = true := by
  intro x
  induction x with
  | nil => intro y z _ _; rfl
  | cons a as ih =>
    intro y z hxy hyz
    cases y with
    | nil => simp [lexLeB] at hxy
    | cons b bs =>
      cases z with
      | nil => simp [lexLeB] at hyz
      | cons c cs =>
        simp only [lexLeB] at hxy hyz ⊢
        by_cases hab : a.toNat < b.toNat
        · by_cases hbc : b.toNat < c.toNat
          · simp [show a.toNat < c.toNat from Nat.lt_trans hab hbc]
          · by_cases hcb : c.toNat < b.toNat
            · simp [hbc, hcb] at hyz
            · simp [show a.toNat < c.toNat by omega]
        · by_cases hba : b.toNat < a.toNat
          · simp [hab, hba] at hxy
          · simp only [if_neg hab, if_neg hba] at hxy
            by_cases hbc : b.toNat < c.toNat
            · simp [show a.toNat < c.toNat by omega]
            · by_cases hcb : c.toNat < b.toNat
              · simp [hbc, hcb] at hyz
              · simp only [if_neg hbc, if_neg hcb] at hyz
                have h1 : ¬ a.toNat < c.toNat := by omega
                have h2 : ¬ c.toNat < a.toNat := by omega
                simp only [if_neg h1, if_neg h2]
                exact ih bs cs hxy hyz

/-- String comparison by code point is total, as an order instance for the
sortedness lemma of the insertion sort. -/
instance : IsTotal String (fun a b => strLeB a b = true) :=
  ⟨fun a b => lexLeB_total a.toList b.toList⟩

/-- String comparison by code point is transitive, as an order instance for
the sortedness lemma of the insertion sort. -/
instance : IsTrans String (fun a b => strLeB a b = true) :=
  ⟨fun a b c => lexLeB_trans a.toList b.toList c.toList⟩

/-- Every scanned value's count is bounded by the running maximum. -/
theorem cnt_le_maxCntAux (l : List String) :
    ∀ (scan : List String) (b : String), b ∈ scan → cnt l b ≤ maxCntAux l scan := by
  intro scan
  induction scan with
  | nil => intro b hb; cases hb
  | cons a rest ih =>
    intro b hb
    rcases List.mem_cons.mp hb with h | h
    · rw [h, maxCntAux]
      exact Nat.le_max_left _ _
    · calc cnt l b ≤ maxCntAux l rest := ih b h
        _ ≤ max (cnt l a) (maxCntAux l rest) := Nat.le_max_right _ _

/-- The running maximum over a nonempty scan is attained by some scanned
value. -/
theorem maxCntAux_attained (l : List String) :
    ∀ (scan : List String), scan ≠ [] →
      ∃ a ∈ scan, cnt l a = maxCntAux l scan := by
  intro scan
  induction scan with
  | nil => intro h; cases h rfl
  | cons a rest ih =>
    intro _
    cases rest with
    | nil =>
      refine ⟨a, List.mem_cons_self _ _, ?_⟩
      rw [maxCntAux, maxCntAux]
      exact (Nat.max_eq_left (Nat.zero_le _)).symm
    | cons r rs =>
      obtain ⟨b, hb, hcb⟩ := ih (by simp)
      rcases Nat.le_total (cnt l a) (maxCntAux l (r :: rs)) with h | h
      · refine ⟨b, List.mem_cons_of_mem _ hb, ?_⟩
        rw [maxCntAux, Nat.max_eq_right h]
        exact hcb
      · refine ⟨a, List.mem_cons_self _ _, ?_⟩
        rw [maxCntAux, Nat.max_eq_left h]

/-- Membership in the sorted mode list: exactly the values of maximal
count. -/
theorem mem_modesOf {vals : List String} {b : String} :
    b ∈ modesOf vals ↔ b ∈ vals ∧ cnt vals b = maxCnt vals := by
  rw [modesOf, (List.perm_insertionSort _ _).mem_iff]
  simp [List.mem_filter, List.mem_dedup]

/-- The mode list is sorted ascending by code point. -/
theorem modesOf_sorted (vals : List String) :
    List.Sorted (fun a b => strLeB a b = true) (modesOf vals) :=
  List.sorted_insertionSort _ _

/-- Claim C8 (corrected): the affiliation chosen by analyze_mode for an
author is a statistical mode of the author's non-null affiliation values,
but ties are broken by ascending code-point order of the affiliation string
(pandas sorts the modes before entry zero is taken), not by first-encountered
row order: the chosen value occurs in the column, its count is maximal, and
it compares less than or equal to every other value of maximal count. -/
theorem claim_C8_mode_tiebreak (col : List (Option String)) (a : String)
    (h : affMode col = some a) :
    a ∈ col.filterMap id ∧
    cnt (col.filterMap id) a = maxCnt (col.filterMap id) ∧
    ∀ b ∈ col.filterMap id,
      cnt (col.filterMap id) b ≤ cnt (col.filterMap id) a ∧
      (cnt (col.filterMap id) b = cnt (col.filterMap id) a →
        strLeB a b = true) := by
  rw [affMode] at h
  cases hm : modesOf (col.filterMap id) with
  | nil => rw [hm] at h; cases h
  | cons a0 t =>
    rw [hm] at h
    have ha0 : a0 = a := by
      simpa using h
    rw [ha0] at hm
    have hamem : a ∈ modesOf (col.filterMap id) := by
      rw [hm]; exact List.mem_cons_self _ _
    obtain ⟨hav, hac⟩ := mem_modesOf.mp hamem
    refine ⟨hav, hac, ?_⟩
    intro b hb
    have hble : cnt (col.filterMap id) b ≤ maxCnt (col.filterMap id) :=
      cnt_le_maxCntAux _ _ b hb
    constructor
    · rw [hac]; exact hble
    · intro hbeq
      have hbmem : b ∈ modesOf (col.filterMap id) :=
        mem_modesOf.mpr ⟨hb, by rw [hbeq, hac]⟩
      rw [hm] at hbmem
      rcases List.mem_cons.mp hbmem with h1 | h1
      · rw [h1]; exact lexLeB_refl _
      · have hs := modesOf_sorted (col.filterMap id)
        rw [hm] at hs
        exact (List.sorted_cons.mp hs).1 b h1

/-- Counterexample for claim C8 as stated: with one MIT row before one
Harvard row the counts tie, the first-encountered value is MIT, but the code
resolves Harvard because pandas returns the modes sorted ascending. -/
theorem claim_C8_counterexample :
    affMode [some ("MIT"), some ("Harvard")] = some ("Harvard") ∧
    firstMode [some ("MIT"), some ("Harvard")] = some ("MIT") ∧
    ("Harvard") ≠ ("MIT") := ⟨by decide, by decide, by decide⟩

/-- Witness for claim C8 (corrected) at the concrete tied column: the
resolved affiliation Harvard has maximal count. -/
theorem claim_C8_mode_tiebreak_witness :
    cnt (([some ("MIT"), some ("Harvard")] : List (Option String)).filterMap id)
        ("Harvard") =
      maxCnt (([some ("MIT"), some ("Harvard")] : List (Option String)).filterMap id) :=
  (claim_C8_mode_tiebreak [some ("MIT"), some ("Harvard")] ("Harvard")
    (by decide)).2.1
